import Mathlib

/-!
Verification of the fraud-detection decision engine (Go sources under
internal/domain/fraud, internal/rules, internal/application/fraud,
internal/infrastructure/cache/redis) against its specification.

Embedding conventions:
* `decimal.Decimal` (shopspring, exact decimal arithmetic) is modelled as `ℚ`.
* `float64` quantities that only feed comparisons and affine formulas are
  modelled as `ℚ`; the floating-point haversine geometry is abstracted as a
  distance-function parameter, since only comparisons on its output matter
  to the rules.
* `time.Time` values are modelled as `ℚ` (hours since an arbitrary epoch);
  Go's zero `time.Time` is modelled as `0`.
* `uuid.UUID` is modelled as `ℕ`, with `uuid.Nil` modelled as `0`.
* Fallible calls (Redis window store, repositories) are modelled as
  `Except Unit α` oracle arguments, one per call site.
* Side-effect-free struct fields that no theorem touches (timestamps of
  audit columns, free-form descriptions) are omitted where noted.
-/

namespace FraudDetection

/-- Go `fraud.RuleType` (rule.go). -/
inductive RuleType where
  | velocity
  | amount
  | geographic
  | device
  | merchant
  | behavioral
deriving DecidableEq, Repr

/-- Go `fraud.RuleSeverity` (rule.go). -/
inductive RuleSeverity where
  | low
  | medium
  | high
  | critical
deriving DecidableEq, Repr

/-- Go `fraud.RuleAction` (rule.go). -/
inductive RuleAction where
  | allow
  | block
  | review
  | challenge
deriving DecidableEq, Repr

/-- Go `fraud.DecisionType` (part with FraudDecision). -/
inductive DecisionType where
  | allow
  | block
  | review
  | challenge
deriving DecidableEq, Repr

/-- Go `fraud.RiskLevel`. -/
inductive RiskLevel where
  | low
  | medium
  | high
  | critical
deriving DecidableEq, Repr

/-- Go `fraud.CaseStatus`. -/
inductive CaseStatus where
  | open_
  | investigating
  | resolved
  | closed
  | escalated
deriving DecidableEq, Repr

/-- Values stored in `RuleResult.Metadata` (Go `map[string]interface{}`).
The engine only ever stores numbers, strings, ints and bools there. -/
inductive MetaVal where
  | q (v : ℚ)
  | s (v : String)
  | i (v : ℤ)
  | b (v : Bool)
deriving DecidableEq, Repr

/-- Go `fraud.RuleResult` (rule.go). `EvaluatedAt` (a wall-clock stamp)
is omitted; metadata is an association list in insertion order. -/
structure RuleResult where
  ruleId : ℕ
  ruleName : String
  fired : Bool
  score : ℚ
  reason : String
  action : RuleAction
  metadata : List (String × MetaVal)
deriving DecidableEq, Repr

/-- Go `fraud.NewRuleResult` (rule.go): fresh result with empty metadata. -/
def NewRuleResult (ruleId : ℕ) (ruleName : String) (fired : Bool)
    (score : ℚ) (reason : String) (action : RuleAction) : RuleResult :=
  { ruleId := ruleId, ruleName := ruleName, fired := fired, score := score,
    reason := reason, action := action, metadata := [] }

/-- Go `RuleResult.AddMetadata`. -/
def RuleResult.addMetadata (rr : RuleResult) (key : String) (value : MetaVal) :
    RuleResult :=
  { rr with metadata := rr.metadata ++ [(key, value)] }

/-- Go `fraud.VelocityRuleConfig` (rule.go). -/
structure VelocityRuleConfig where
  maxTransactions : ℤ
  windowMinutes : ℤ
  amountThreshold : ℚ
  countOnly : Bool
deriving DecidableEq, Repr

/-- Go `fraud.AmountRuleConfig` (rule.go). -/
structure AmountRuleConfig where
  minAmount : ℚ
  maxAmount : ℚ
  deviationFactor : ℚ
deriving DecidableEq, Repr

/-- Go `fraud.GeographicRuleConfig` (rule.go). -/
structure GeographicRuleConfig where
  allowedCountries : List String
  blockedCountries : List String
  maxDistanceKm : ℚ
  requireConsistent : Bool
deriving DecidableEq, Repr

/-- Go `fraud.DeviceRuleConfig` (rule.go). -/
structure DeviceRuleConfig where
  requireTrustedDevice : Bool
  maxDevicesPerUser : ℤ
  blockNewDevices : Bool
deriving DecidableEq, Repr

/-- The per-family payload of a rule's `Config` JSON map, already shaped.
The Go parse functions (`parseVelocityConfig`, ...) read the raw map and
fall back to defaults when keys are absent or of the wrong family; the
mismatch-with-defaults behaviour is reproduced by the extractors below. -/
inductive RuleConfig where
  | velocity (c : VelocityRuleConfig)
  | amount (c : AmountRuleConfig)
  | geographic (c : GeographicRuleConfig)
  | device (c : DeviceRuleConfig)
  | merchant
  | behavioral
  | empty
deriving DecidableEq, Repr

/-- Go `parseVelocityConfig` (rules engine): defaults
`MaxTransactions = 10`, `WindowMinutes = 5`, zero amount threshold. -/
def parseVelocityConfig : RuleConfig → VelocityRuleConfig
  | .velocity c => c
  | _ => { maxTransactions := 10, windowMinutes := 5,
           amountThreshold := 0, countOnly := false }

/-- Go `parseAmountConfig`: all-zero defaults. -/
def parseAmountConfig : RuleConfig → AmountRuleConfig
  | .amount c => c
  | _ => { minAmount := 0, maxAmount := 0, deviationFactor := 0 }

/-- Go `parseGeographicConfig`: empty-list / zero defaults. -/
def parseGeographicConfig : RuleConfig → GeographicRuleConfig
  | .geographic c => c
  | _ => { allowedCountries := [], blockedCountries := [],
           maxDistanceKm := 0, requireConsistent := false }

/-- Go `parseDeviceConfig`: all-false / zero defaults. -/
def parseDeviceConfig : RuleConfig → DeviceRuleConfig
  | .device c => c
  | _ => { requireTrustedDevice := false, maxDevicesPerUser := 0,
           blockNewDevices := false }

/-- Go `fraud.Rule` (rule.go). `Description`, `CreatedBy` and the audit
timestamps `CreatedAt`/`UpdatedAt` are omitted; times are ℚ hours. -/
structure Rule where
  id : ℕ
  name : String
  type : RuleType
  severity : RuleSeverity
  action : RuleAction
  config : RuleConfig
  enabled : Bool
  version : ℕ
  effectiveAt : ℚ
  expiresAt : Option ℚ
deriving DecidableEq, Repr

/-- Go `Rule.IsActive` (rule.go): enabled, already effective, not expired.
`now` stands for Go's `time.Now()`. -/
def Rule.IsActive (r : Rule) (now : ℚ) : Bool :=
  if !r.enabled then false
  else if now < r.effectiveAt then false
  else match r.expiresAt with
    | some t => if t < now then false else true
    | none => true

/-- Go `calculateVelocityScore` (rules engine). `ratio` is `count/limit`
(Go float64 division, exact here; theorems only invoke it with
`limit ≥ 1`, where the float and rational computations agree). -/
def calculateVelocityScore (count : ℤ) (limit : ℤ) : ℚ :=
  let ratio : ℚ := (count : ℚ) / (limit : ℚ)
  if ratio ≥ 2 then (0.9 : ℚ)
  else 0.5 + (ratio - 1) * 0.4

/-- Go `calculateAmountScore` (rules engine). -/
def calculateAmountScore (amount limit : ℚ) : ℚ :=
  let ratio : ℚ := amount / limit
  if ratio ≥ 5 then (0.95 : ℚ)
  else if ratio ≥ 2 then (0.8 : ℚ)
  else 0.6 + (ratio - 1) * 0.2

/-- Go `fraud.GeoLocation` (rule.go); `Region`/`IPAddress` omitted. -/
structure GeoLocation where
  latitude : ℚ
  longitude : ℚ
  country : String
  city : String
deriving DecidableEq, Repr

/-- Go `fraud.TransactionSummary` (rule.go); `Status` omitted. -/
structure TransactionSummary where
  id : ℕ
  amount : ℚ
  timestamp : ℚ
  location : Option GeoLocation
deriving DecidableEq, Repr

/-- Go `fraud.DeviceInfo` (rule.go); fingerprint strings other than the
id are omitted. -/
structure DeviceInfo where
  deviceId : String
  isTrustedDevice : Bool
deriving DecidableEq, Repr

/-- Go `fraud.MerchantInfo` (rule.go). -/
structure MerchantInfo where
  merchantId : String
  merchantName : String
  merchantCategory : String
  country : String
  isHighRisk : Bool
deriving DecidableEq, Repr

/-- Go `fraud.UserProfile` (rule.go); typical-location/merchant lists and
trusted-device list omitted. `accountAgeHours` models the
`time.Duration` field in hours; `lastActivityAt` is ℚ hours. -/
structure UserProfile where
  userId : ℕ
  accountAgeHours : ℚ
  averageTransaction : ℚ
  lastActivityAt : ℚ
deriving DecidableEq, Repr

/-- Outcomes of the device-cache calls used by the device rule:
`isKnown` models `IsKnownDevice`, `count` models `GetDeviceCount`. -/
structure DeviceOracle where
  isKnown : Except Unit Bool
  count : Except Unit ℤ

/-- The evaluation context plus the environment a rule evaluation can
observe: Go `fraud.RuleEvaluationContext` together with the outcomes of
every cache call the engine may make during one evaluation.
`velocityCount w` / `velocitySum w` are the window-store responses for a
window of `w` minutes; `none` for a cache models the corresponding
`*Cache` field of the engine being nil. `haversine` abstracts the
float64 `haversineDistance` function. `now` is Go `time.Now()` in hours. -/
structure RuleEnv where
  transactionId : ℕ
  userId : ℕ
  accountId : ℕ
  amount : ℚ
  timestamp : ℚ
  hour : ℤ
  location : Option GeoLocation
  device : Option DeviceInfo
  merchant : Option MerchantInfo
  userProfile : Option UserProfile
  recentTransactions : List TransactionSummary
  velocityCount : ℤ → Except Unit ℤ
  velocitySum : ℤ → Except Unit ℚ
  deviceOracle : Option DeviceOracle
  isKnownLocation : Option (Except Unit Bool)
  haversine : ℚ → ℚ → ℚ → ℚ → ℚ
  now : ℚ

/-- Go `Engine.evaluateVelocityRule` (rules engine):
window-store count error fails open; `count ≥ max` fires at
`calculateVelocityScore` with the rule's own action; otherwise the
amount-threshold branch may fire at 0.7; otherwise not fired. -/
def evaluateVelocityRule (rule : Rule) (env : RuleEnv) : RuleResult :=
  let config := parseVelocityConfig rule.config
  match env.velocityCount config.windowMinutes with
  | .error _ =>
      NewRuleResult rule.id rule.name false 0 "Unable to check velocity" .allow
  | .ok count =>
      if count ≥ config.maxTransactions then
        let score := calculateVelocityScore count config.maxTransactions
        ((NewRuleResult rule.id rule.name true score
            "Velocity limit exceeded" rule.action).addMetadata
          "transaction_count" (.i count)).addMetadata
          "limit" (.i config.maxTransactions)
      else if config.amountThreshold ≠ 0 ∧ ¬config.countOnly then
        match env.velocitySum config.windowMinutes with
        | .ok total =>
            if total + env.amount > config.amountThreshold then
              ((NewRuleResult rule.id rule.name true (0.7 : ℚ)
                  "Amount velocity limit exceeded" rule.action).addMetadata
                "total_amount" (.q (total + env.amount))).addMetadata
                "amount_limit" (.q config.amountThreshold)
            else
              NewRuleResult rule.id rule.name false 0 "Within velocity limits" .allow
        | .error _ =>
            NewRuleResult rule.id rule.name false 0 "Within velocity limits" .allow
      else
        NewRuleResult rule.id rule.name false 0 "Within velocity limits" .allow

/-- Go `Engine.evaluateAmountRule` (rules engine). -/
def evaluateAmountRule (rule : Rule) (env : RuleEnv) : RuleResult :=
  let config := parseAmountConfig rule.config
  if config.maxAmount ≠ 0 ∧ env.amount > config.maxAmount then
    let score := calculateAmountScore env.amount config.maxAmount
    ((NewRuleResult rule.id rule.name true score
        "Transaction amount exceeds maximum threshold" rule.action).addMetadata
      "amount" (.q env.amount)).addMetadata
      "max_amount" (.q config.maxAmount)
  else
    match env.userProfile with
    | some profile =>
        if config.deviationFactor > 0 ∧ profile.averageTransaction ≠ 0 ∧
            env.amount > profile.averageTransaction * config.deviationFactor then
          ((NewRuleResult rule.id rule.name true (0.65 : ℚ)
              "Transaction amount deviates from average" rule.action).addMetadata
            "amount" (.q env.amount)).addMetadata
            "average" (.q profile.averageTransaction)
        else
          NewRuleResult rule.id rule.name false 0 "Amount within limits" .allow
    | none =>
        NewRuleResult rule.id rule.name false 0 "Amount within limits" .allow

/-- The `require_consistent` branch of the geographic rule fires exactly
when it is enabled, the location cache is present, and `IsKnownLocation`
returned `(false, nil)` (errors fall through, per the source). -/
def geoNewLocationFires (config : GeographicRuleConfig)
    (isKnownRes : Option (Except Unit Bool)) : Bool :=
  config.requireConsistent &&
    match isKnownRes with
    | some (.ok false) => true
    | _ => false

/-- Go `Engine.evaluateGeographicRule` (rules engine), preserving the
source's check order: missing location, blocked countries (override
block, 0.9), allowed countries (0.75, rule action), unknown location
under `require_consistent` (override challenge, 0.5), impossible travel
(override block, 0.85 with distance and speed metadata), else pass.
`env.haversine` stands for `haversineDistance`; the speed is
`distance / timeDiff.Hours()` with timestamps in hours. -/
def evaluateGeographicRule (rule : Rule) (env : RuleEnv) : RuleResult :=
  match env.location with
  | none => NewRuleResult rule.id rule.name false 0 "No location data" .allow
  | some loc =>
    let config := parseGeographicConfig rule.config
    if config.blockedCountries.contains loc.country then
      (NewRuleResult rule.id rule.name true (0.9 : ℚ)
          "Transaction from blocked country" .block).addMetadata
        "country" (.s loc.country)
    else if !config.allowedCountries.isEmpty &&
        !config.allowedCountries.contains loc.country then
      (NewRuleResult rule.id rule.name true (0.75 : ℚ)
          "Transaction from non-allowed country" rule.action).addMetadata
        "country" (.s loc.country)
    else if geoNewLocationFires config env.isKnownLocation then
      ((NewRuleResult rule.id rule.name true (0.5 : ℚ)
          "Transaction from new location" .challenge).addMetadata
        "city" (.s loc.city)).addMetadata
        "country" (.s loc.country)
    else
      match env.recentTransactions with
      | [] => NewRuleResult rule.id rule.name false 0 "Location check passed" .allow
      | lastTx :: _ =>
        if config.maxDistanceKm > 0 then
          match lastTx.location with
          | some lastLoc =>
            let distance := env.haversine loc.latitude loc.longitude
              lastLoc.latitude lastLoc.longitude
            if distance > config.maxDistanceKm then
              let timeDiff := env.timestamp - lastTx.timestamp
              let speedKmH := distance / timeDiff
              if speedKmH > 900 then
                ((NewRuleResult rule.id rule.name true (0.85 : ℚ)
                    "Impossible travel" .block).addMetadata
                  "distance_km" (.q distance)).addMetadata
                  "speed_kmh" (.q speedKmH)
              else
                NewRuleResult rule.id rule.name false 0 "Location check passed" .allow
            else
              NewRuleResult rule.id rule.name false 0 "Location check passed" .allow
          | none =>
              NewRuleResult rule.id rule.name false 0 "Location check passed" .allow
        else
          NewRuleResult rule.id rule.name false 0 "Location check passed" .allow

/-- Go `Engine.evaluateDeviceRule` (rules engine). The second
`IsKnownDevice` call site discards the error (`isKnown, _ :=`), so an
errored lookup behaves like `isKnown = false` there. -/
def evaluateDeviceRule (rule : Rule) (env : RuleEnv) : RuleResult :=
  match env.device with
  | none => NewRuleResult rule.id rule.name false 0 "No device data" .allow
  | some device =>
    let config := parseDeviceConfig rule.config
    let untrustedUnknownFires :=
      config.requireTrustedDevice && !device.isTrustedDevice &&
        match env.deviceOracle with
        | some oracle =>
            match oracle.isKnown with
            | .ok false => true
            | _ => false
        | none => false
    if untrustedUnknownFires then
      if config.blockNewDevices then
        (NewRuleResult rule.id rule.name true (0.8 : ℚ)
            "Transaction from untrusted, unknown device" .block).addMetadata
          "device_id" (.s device.deviceId)
      else
        (NewRuleResult rule.id rule.name true (0.55 : ℚ)
            "Transaction from new device" .challenge).addMetadata
          "device_id" (.s device.deviceId)
    else
      match env.deviceOracle with
      | some oracle =>
        let overLimitNewDeviceFires :=
          config.maxDevicesPerUser > 0 &&
            (match oracle.count with
             | .ok deviceCount => deviceCount ≥ config.maxDevicesPerUser
             | .error _ => false) &&
            !(match oracle.isKnown with
              | .ok b => b
              | .error _ => false)
        if overLimitNewDeviceFires then
          ((NewRuleResult rule.id rule.name true (0.6 : ℚ)
              "User device limit reached with a new device" rule.action).addMetadata
            "device_count" (.i (match oracle.count with
              | .ok c => c
              | .error _ => 0))).addMetadata
            "max_devices" (.i config.maxDevicesPerUser)
        else
          NewRuleResult rule.id rule.name false 0 "Device check passed" .allow
      | none =>
          NewRuleResult rule.id rule.name false 0 "Device check passed" .allow

/-- Go `Engine.evaluateMerchantRule` (rules engine): 0.45 review for
high-risk merchants, 0.40 review for the high-risk MCC set. -/
def evaluateMerchantRule (rule : Rule) (env : RuleEnv) : RuleResult :=
  match env.merchant with
  | none => NewRuleResult rule.id rule.name false 0 "No merchant data" .allow
  | some merchant =>
    if merchant.isHighRisk then
      ((NewRuleResult rule.id rule.name true (0.45 : ℚ)
          "Transaction with high-risk merchant" .review).addMetadata
        "merchant_name" (.s merchant.merchantName)).addMetadata
        "merchant_category" (.s merchant.merchantCategory)
    else if ["7995", "7801", "5967", "6051"].contains merchant.merchantCategory then
      (NewRuleResult rule.id rule.name true (0.4 : ℚ)
          "Transaction with high-risk merchant category" .review).addMetadata
        "merchant_category" (.s merchant.merchantCategory)
    else
      NewRuleResult rule.id rule.name false 0 "Merchant check passed" .allow

/-- Go `Engine.evaluateBehavioralRule` (rules engine): late-night hour
(0.35 challenge), account younger than 24 h (0.5 review), dormant more
than 3 months — modelled as 2190 hours — (0.55 review). -/
def evaluateBehavioralRule (rule : Rule) (env : RuleEnv) : RuleResult :=
  match env.userProfile with
  | none => NewRuleResult rule.id rule.name false 0 "No user profile" .allow
  | some profile =>
    if 2 ≤ env.hour ∧ env.hour ≤ 5 then
      (NewRuleResult rule.id rule.name true (0.35 : ℚ)
          "Transaction at unusual hour (late night)" .challenge).addMetadata
        "hour" (.i env.hour)
    else if profile.accountAgeHours < 24 then
      (NewRuleResult rule.id rule.name true (0.5 : ℚ)
          "Transaction from very new account" .review).addMetadata
        "account_age_hours" (.q profile.accountAgeHours)
    else if profile.lastActivityAt < env.now - 2190 then
      NewRuleResult rule.id rule.name true (0.55 : ℚ)
        "Transaction from dormant account" .review
    else
      NewRuleResult rule.id rule.name false 0 "Behavioral check passed" .allow

/-- Go `Engine.EvaluateRule` (rules engine): inactive rules yield a
non-fired allow result; otherwise dispatch on the rule family. Every Go
evaluator returns a nil error, so each branch is `.ok`. -/
def EvaluateRule (rule : Rule) (env : RuleEnv) : Except Unit RuleResult :=
  if !rule.IsActive env.now then
    .ok (NewRuleResult rule.id rule.name false 0 "Rule not active" .allow)
  else
    match rule.type with
    | .velocity => .ok (evaluateVelocityRule rule env)
    | .amount => .ok (evaluateAmountRule rule env)
    | .geographic => .ok (evaluateGeographicRule rule env)
    | .device => .ok (evaluateDeviceRule rule env)
    | .merchant => .ok (evaluateMerchantRule rule env)
    | .behavioral => .ok (evaluateBehavioralRule rule env)

/-- Go `Engine.Evaluate` inner loop (rules engine): evaluate each rule;
an errored evaluation is skipped (`continue`), the others are appended
in order. -/
def EngineEvaluate (rules : List Rule) (env : RuleEnv) : List RuleResult :=
  rules.filterMap (fun r => (EvaluateRule r env).toOption)

/-- Go `fraud.ScoreWeights` (scoring). -/
structure ScoreWeights where
  velocity : ℚ
  amount : ℚ
  geographic : ℚ
  device : ℚ
  merchant : ℚ
  behavioral : ℚ
  mlModel : ℚ
deriving DecidableEq, Repr

/-- Go `fraud.DefaultScoreWeights` (scoring). -/
def DefaultScoreWeights : ScoreWeights :=
  { velocity := 0.25, amount := 0.15, geographic := 0.20, device := 0.15,
    merchant := 0.10, behavioral := 0.10, mlModel := 0.05 }

/-- Go `getWeightForRule` (scoring): the source ignores both the rule
name and the weights table and returns the constant 0.15 (its comment
reads "simplified for demonstration"). -/
def getWeightForRule (ruleName : String) (weights : ScoreWeights) : ℚ :=
  0.15

/-- Go `getRiskLevel` (scoring): score thresholds 0.80 / 0.60 / 0.30. -/
def getRiskLevel (score : ℚ) : RiskLevel :=
  if score ≥ 0.80 then .critical
  else if score ≥ 0.60 then .high
  else if score ≥ 0.30 then .medium
  else .low

/-- Go `aggregateWeightedAverage` (scoring): sum of
`score * getWeightForRule(name, weights)` over fired results, then
capped above at 1. Only the final score is modelled of
`ScoreCalculationResult` (risk level is recomputed by `getRiskLevel`). -/
def aggregateWeightedAverage (results : List RuleResult)
    (weights : ScoreWeights) : ℚ :=
  let totalScore := results.foldl
    (fun acc result =>
      if result.fired then
        acc + result.score * getWeightForRule result.ruleName weights
      else acc) 0
  if totalScore > 1 then 1 else totalScore

/-- Go `aggregateMaxScore` (scoring). -/
def aggregateMaxScore (results : List RuleResult) : ℚ :=
  results.foldl
    (fun acc result =>
      if result.fired ∧ result.score > acc then result.score else acc) 0

/-- Modelled from the spec: the weight of a rule family under
`weighted_average` ("The rule → weight mapping should be by family
(derived from rule.type), not by rule name"). Used to compare the
source's `getWeightForRule` against the specified behaviour. -/
def specWeightForFamily (family : RuleType) (weights : ScoreWeights) : ℚ :=
  match family with
  | .velocity => weights.velocity
  | .amount => weights.amount
  | .geographic => weights.geographic
  | .device => weights.device
  | .merchant => weights.merchant
  | .behavioral => weights.behavioral

/-- Modelled from the spec: `final = Σ (result.score · weight(family))`
over fired rules, clamped to [0, 1]. Each result is paired with the
family of the rule that produced it. -/
def specAggregateWeightedAverage (results : List (RuleType × RuleResult))
    (weights : ScoreWeights) : ℚ :=
  let total := results.foldl
    (fun acc fr =>
      if fr.2.fired then
        acc + fr.2.score * specWeightForFamily fr.1 weights
      else acc) 0
  min 1 (max 0 total)

/-- Go `fraud.DecisionThresholds` (scoring). -/
structure DecisionThresholds where
  blockThreshold : ℚ
  reviewThreshold : ℚ
  challengeThreshold : ℚ
deriving DecidableEq, Repr

/-- Go `fraud.DefaultDecisionThresholds` (scoring). -/
def DefaultDecisionThresholds : DecisionThresholds :=
  { blockThreshold := 0.80, reviewThreshold := 0.60, challengeThreshold := 0.40 }

/-- Go `Service.determineDecision` (service.go): thresholds checked in
order of severity, each an inclusive lower bound. -/
def determineDecision (thresholds : DecisionThresholds) (score : ℚ) :
    DecisionType :=
  if score ≥ thresholds.blockThreshold then .block
  else if score ≥ thresholds.reviewThreshold then .review
  else if score ≥ thresholds.challengeThreshold then .challenge
  else .allow

/-- The canonical severity ordering allow < challenge < review < block
used by the spec's monotonicity property. -/
def decisionRank : DecisionType → ℕ
  | .allow => 0
  | .challenge => 1
  | .review => 2
  | .block => 3

/-- Number of fired results in a list. -/
def firedCount (results : List RuleResult) : ℕ :=
  (results.filter (·.fired)).length

/-- Go `Service.calculateConfidence` (service.go): 0 on an empty list,
otherwise the fired/total ratio capped at 0.95. -/
def calculateConfidence (results : List RuleResult) : ℚ :=
  if results.isEmpty then 0
  else
    let confidence : ℚ := (firedCount results : ℚ) / (results.length : ℚ)
    if confidence > 0.95 then 0.95 else confidence

/-- The rule engine's in-process cache state (rules engine `Engine`
struct): the cached active-rule snapshot and the last refresh time.
The reader/writer lock serialises accesses; the sequential model below
captures the cache logic itself. -/
structure EngineState where
  rulesCache : Option (List Rule)
  lastRefresh : ℚ
deriving DecidableEq, Repr

/-- Go `Engine.GetActiveRules` (rules engine): serve the cached snapshot
while it is non-nil and younger than the TTL; otherwise refetch via
`ruleRepo.ListActive` (outcome `listActiveRes`), store it and stamp
`lastRefresh := now`. The double-checked refresh collapses in this
sequential model. -/
def GetActiveRules (e : EngineState) (now ttl : ℚ)
    (listActiveRes : Except Unit (List Rule)) :
    Except Unit (List Rule × EngineState) :=
  match e.rulesCache with
  | some cached =>
      if now - e.lastRefresh < ttl then .ok (cached, e)
      else
        match listActiveRes with
        | .ok rules => .ok (rules, { rulesCache := some rules, lastRefresh := now })
        | .error u => .error u
  | none =>
      match listActiveRes with
      | .ok rules => .ok (rules, { rulesCache := some rules, lastRefresh := now })
      | .error u => .error u

/-- Go `Engine.invalidateCache` (rules engine): drop the snapshot. -/
def invalidateCache (e : EngineState) : EngineState :=
  { e with rulesCache := none }

/-- Go `Engine.AddRule` (rules engine): on repository success,
unconditionally invalidate the cache; on failure return the error with
the cache untouched. `createRes` is the outcome of `ruleRepo.Create`. -/
def AddRule (e : EngineState) (createRes : Except Unit Unit) :
    Except Unit EngineState :=
  match createRes with
  | .error u => .error u
  | .ok _ => .ok (invalidateCache e)

/-- Go `Engine.UpdateRule` (rules engine): same shape over
`ruleRepo.Update`. -/
def UpdateRule (e : EngineState) (updateRes : Except Unit Unit) :
    Except Unit EngineState :=
  match updateRes with
  | .error u => .error u
  | .ok _ => .ok (invalidateCache e)

/-- Go `Engine.DisableRule` (rules engine): same shape over
`ruleRepo.Disable`. -/
def DisableRule (e : EngineState) (disableRes : Except Unit Unit) :
    Except Unit EngineState :=
  match disableRes with
  | .error u => .error u
  | .ok _ => .ok (invalidateCache e)

/-- The case-operation errors of part_011 / errors file:
`ErrCaseAlreadyClosed`, `ErrCaseNotResolved`. -/
inductive CaseErr where
  | caseAlreadyClosed
  | caseNotResolved
deriving DecidableEq, Repr

/-- Go `fraud.FraudCase` (case file). Amount/currency, description,
evidence and the audit timestamps are omitted; notes keep author and
content. -/
structure FraudCase where
  id : ℕ
  transactionIds : List ℕ
  userId : ℕ
  accountId : ℕ
  status : CaseStatus
  riskLevel : RiskLevel
  assignedTo : Option ℕ
  notes : List (ℕ × String)
  resolution : Option String
  resolvedBy : Option ℕ
deriving DecidableEq, Repr

/-- Go `NewFraudCase`: status open, one transaction, no notes. -/
def NewFraudCase (transactionId userId accountId : ℕ)
    (riskLevel : RiskLevel) : FraudCase :=
  { id := 0, transactionIds := [transactionId], userId := userId,
    accountId := accountId, status := .open_, riskLevel := riskLevel,
    assignedTo := none, notes := [], resolution := none, resolvedBy := none }

/-- Go `FraudCase.Assign`: errors when closed or resolved, else records
the investigator and moves to investigating. -/
def FraudCase.Assign (fc : FraudCase) (investigatorId : ℕ) :
    Except CaseErr FraudCase :=
  if fc.status = .closed ∨ fc.status = .resolved then
    .error .caseAlreadyClosed
  else
    .ok { fc with assignedTo := some investigatorId, status := .investigating }

/-- Go `FraudCase.AddNote`: append a note (never fails). -/
def FraudCase.AddNote (fc : FraudCase) (authorId : ℕ) (content : String) :
    FraudCase :=
  { fc with notes := fc.notes ++ [(authorId, content)] }

/-- Go `FraudCase.Resolve`: errors when closed, else records resolution
and moves to resolved. -/
def FraudCase.Resolve (fc : FraudCase) (resolverId : ℕ) (resolution : String) :
    Except CaseErr FraudCase :=
  if fc.status = .closed then
    .error .caseAlreadyClosed
  else
    .ok { fc with status := .resolved, resolution := some resolution,
                  resolvedBy := some resolverId }

/-- Go `FraudCase.Close`: errors unless resolved, else moves to closed. -/
def FraudCase.Close (fc : FraudCase) : Except CaseErr FraudCase :=
  if fc.status ≠ .resolved then
    .error .caseNotResolved
  else
    .ok { fc with status := .closed }

/-- Go `FraudCase.Escalate`: no status guard — unconditionally moves to
escalated (even from resolved or closed) and appends a nil-author note. -/
def FraudCase.Escalate (fc : FraudCase) (reason : String) : FraudCase :=
  ({ fc with status := .escalated }).AddNote 0 ("Case escalated: " ++ reason)

/-- One entry of the per-user velocity sorted set
(`velocity:user:{uuid}`): the Redis score is the event-time Unix stamp
written by `RecordTransaction`; the member string "txId|amount" is
modelled post-split, with `none` components standing for a member whose
txId / amount failed to parse. -/
structure StoreEntry where
  score : ℤ
  txId : Option ℕ
  amount : Option ℚ
deriving DecidableEq, Repr

/-- Go `redis.TransactionRecord` (client.go). The Go struct has a
`Timestamp time.Time` field; the zero `time.Time` is modelled as `0`. -/
structure TransactionRecord where
  transactionId : ℕ
  amount : ℚ
  timestamp : ℚ
deriving DecidableEq, Repr

/-- Go `VelocityCache.GetRecentTransactions` (client.go): members whose
txId or amount fail to parse are skipped; the record is built as
`TransactionRecord{TransactionID: txID, Amount: amount}`, leaving the
`Timestamp` field at its zero value — the stored event-time score is
never read back. -/
def GetRecentTransactions (entries : List StoreEntry) :
    List TransactionRecord :=
  entries.filterMap (fun e =>
    match e.txId, e.amount with
    | some txId, some amount =>
        some { transactionId := txId, amount := amount, timestamp := 0 }
    | _, _ => none)

/-- Go `DetectFraudUseCase.enrichContext` (detect_fraud.go), recent-
transaction part: map each cached record into a `TransactionSummary`
carrying the record's `Timestamp` (and no location). -/
def enrichRecentTransactions (entries : List StoreEntry) :
    List TransactionSummary :=
  (GetRecentTransactions entries).map (fun r =>
    { id := r.transactionId, amount := r.amount,
      timestamp := r.timestamp, location := none })

/-- The fraud-service errors surfaced by `AnalyzeTransaction`
(service.go / errors file). `persistFailed` stands for the raw
repository error returned when `decisionRepo.Create` fails. -/
inductive AnalyzeError where
  | missingTransactionData
  | evaluationFailed
  | scoringFailed
  | persistFailed
deriving DecidableEq, Repr

/-- Go `fraud.FraudDecision` (decision file), the fields
`AnalyzeTransaction` populates; identity and wall-clock fields omitted. -/
structure FraudDecision where
  transactionId : ℕ
  userId : ℕ
  decision : DecisionType
  score : ℚ
  riskLevel : RiskLevel
  confidence : ℚ
  rulesFired : List String
  reasons : List String
deriving DecidableEq, Repr

/-- Go `Service.AnalyzeTransaction` (service.go). Arguments:
`evalCtx` — the evaluation context (`none` models a nil pointer);
`activeRulesRes` — the outcome of the rule engine's active-rule fetch
(its only error source inside `Engine.Evaluate`); `thresholds` and
`weights` — the service configuration (strategy fixed to
weighted_average, the service default); `persistRes` — the outcome of
`decisionRepo.Create`; `decisions` — the persisted append-only decision
log. Returns the result together with the decision log afterwards.
Validation failures return `ErrMissingTransactionData` before any rule
is evaluated or any state changes; the case-coordination step that runs
for review/block decisions swallows its own errors and does not touch
the decision log, so it is not modelled as state. -/
def AnalyzeTransaction (evalCtx : Option RuleEnv)
    (activeRulesRes : Except Unit (List Rule))
    (thresholds : DecisionThresholds) (weights : ScoreWeights)
    (persistRes : Except Unit Unit) (decisions : List FraudDecision) :
    Except AnalyzeError FraudDecision × List FraudDecision :=
  match evalCtx with
  | none => (.error .missingTransactionData, decisions)
  | some ctx =>
    if ctx.userId = 0 ∨ ctx.transactionId = 0 then
      (.error .missingTransactionData, decisions)
    else
      match activeRulesRes with
      | .error _ => (.error .evaluationFailed, decisions)
      | .ok rules =>
        let ruleResults := EngineEvaluate rules ctx
        let finalScore := aggregateWeightedAverage ruleResults weights
        let decision := determineDecision thresholds finalScore
        let fired := ruleResults.filter (·.fired)
        let fraudDecision : FraudDecision :=
          { transactionId := ctx.transactionId, userId := ctx.userId,
            decision := decision, score := finalScore,
            riskLevel := getRiskLevel finalScore,
            confidence := calculateConfidence ruleResults,
            rulesFired := fired.map (·.ruleName),
            reasons := fired.map (·.reason) }
        match persistRes with
        | .error _ => (.error .persistFailed, decisions)
        | .ok _ => (.ok fraudDecision, decisions ++ [fraudDecision])

/-! ## Concrete fixtures used by counterexamples and witnesses -/

/-- A fired velocity-family result with full score, named as in the
spec's velocity scenario. -/
def firedVelocityResult : RuleResult :=
  { ruleId := 1, ruleName := "high_velocity", fired := true, score := 1,
    reason := "Velocity limit exceeded", action := .block, metadata := [] }

/-- A velocity rule with `max_transactions = 5`, `window_minutes = 5`. -/
def velocityRuleFixture : Rule :=
  { id := 2, name := "high_velocity", type := .velocity, severity := .high,
    action := .block,
    config := .velocity { maxTransactions := 5, windowMinutes := 5,
                          amountThreshold := 0, countOnly := false },
    enabled := true, version := 1, effectiveAt := 0, expiresAt := none }

/-- A baseline evaluation environment: one user, no optional descriptors,
window store reporting 5 transactions. -/
def baseEnvFixture : RuleEnv :=
  { transactionId := 1, userId := 1, accountId := 1, amount := 50,
    timestamp := 10, hour := 12, location := none, device := none,
    merchant := none, userProfile := none, recentTransactions := [],
    velocityCount := fun _ => .ok 5, velocitySum := fun _ => .ok 0,
    deviceOracle := none, isKnownLocation := none,
    haversine := fun _ _ _ _ => 0, now := 10 }

/-! ## C1 -/

/-- C1: the claim says weighted_average multiplies each fired score by
the weight of the rule's family (velocity 0.25 by default). The code's
`getWeightForRule` returns the constant 0.15 instead: on a single fired
velocity rule with score 1 the source computes 0.15 where the
spec-modelled family-weighted aggregation computes 0.25. -/
theorem weighted_average_uses_constant_not_family_weight :
    aggregateWeightedAverage [firedVelocityResult] DefaultScoreWeights = 0.15 ∧
    specAggregateWeightedAverage [(RuleType.velocity, firedVelocityResult)]
      DefaultScoreWeights = 0.25 ∧
    (0.15 : ℚ) ≠ 0.25 := by
  refine ⟨?_, ?_, by norm_num⟩
  · norm_num [aggregateWeightedAverage, getWeightForRule, firedVelocityResult,
      DefaultScoreWeights]
  · norm_num [specAggregateWeightedAverage, specWeightForFamily,
      firedVelocityResult, DefaultScoreWeights]

/-! ## C6 -/

/-- C6: with challenge < review < block thresholds, `determineDecision`
is monotone: a lower score never maps to a more severe decision under
allow < challenge < review < block. -/
theorem determineDecision_monotone (th : DecisionThresholds) (a b : ℚ)
    (hcr : th.challengeThreshold < th.reviewThreshold)
    (hrb : th.reviewThreshold < th.blockThreshold)
    (hab : a ≤ b) :
    decisionRank (determineDecision th a) ≤ decisionRank (determineDecision th b) := by
  unfold determineDecision
  split_ifs <;> simp [decisionRank] <;> linarith

/-- Witness for C6 at the default thresholds with scores 0.50 ≤ 0.70. -/
theorem determineDecision_monotone_witness :
    decisionRank (determineDecision DefaultDecisionThresholds 0.5) ≤
      decisionRank (determineDecision DefaultDecisionThresholds 0.7) :=
  determineDecision_monotone DefaultDecisionThresholds 0.5 0.7
    (by norm_num [DefaultDecisionThresholds]) (by norm_num [DefaultDecisionThresholds])
    (by norm_num)

/-! ## C7 -/

/-- C7: confidence is the fired/total ratio capped at 0.95, lies in
[0, 0.95], and is 0 on an empty result list. -/
theorem calculateConfidence_ratio_capped (results : List RuleResult) :
    0 ≤ calculateConfidence results ∧
    calculateConfidence results ≤ 0.95 ∧
    (results = [] → calculateConfidence results = 0) ∧
    (results ≠ [] → calculateConfidence results =
      min ((firedCount results : ℚ) / (results.length : ℚ)) 0.95) := by
  unfold calculateConfidence
  rcases results with _ | ⟨r, rs⟩
  · norm_num
  · have hlen : (0 : ℚ) < ((r :: rs).length : ℚ) := by
      have : 0 < (r :: rs).length := List.length_pos.mpr (by simp)
      exact_mod_cast this
    have hfired : (firedCount (r :: rs) : ℚ) ≤ ((r :: rs).length : ℚ) := by
      have : firedCount (r :: rs) ≤ (r :: rs).length :=
        List.length_filter_le _ _
      exact_mod_cast this
    have hnonneg : (0 : ℚ) ≤ (firedCount (r :: rs) : ℚ) / ((r :: rs).length : ℚ) :=
      div_nonneg (by positivity) (le_of_lt hlen)
    have hle1 : (firedCount (r :: rs) : ℚ) / ((r :: rs).length : ℚ) ≤ 1 :=
      (div_le_one hlen).mpr hfired
    simp only [List.isEmpty_cons, if_false, Bool.false_eq_true]
    constructor
    · split_ifs <;> [norm_num; exact hnonneg]
    constructor
    · split_ifs with h <;> linarith
    constructor
    · intro h; exact absurd h (by simp)
    · intro _
      split_ifs with h
      · exact (min_eq_right (by linarith)).symm
      · exact (min_eq_left (by linarith)).symm

/-- Witness for C7 on a non-empty list: one fired result out of one
gives ratio 1, capped at 0.95. -/
theorem calculateConfidence_ratio_capped_witness :
    calculateConfidence [firedVelocityResult] =
      min ((firedCount [firedVelocityResult] : ℚ) /
        (([firedVelocityResult] : List RuleResult).length : ℚ)) 0.95 :=
  (calculateConfidence_ratio_capped [firedVelocityResult]).2.2.2 (by simp)

/-! ## C9 -/

/-- C9: every transaction summary produced by the enrichment path
carries timestamp 0 (Go's zero `time.Time`), whatever event times the
window store holds: `GetRecentTransactions` never reads the stored
score back into the record's `Timestamp` field. -/
theorem enrichRecentTransactions_timestamp_zero (entries : List StoreEntry) :
    ((enrichRecentTransactions entries).all
      fun s => decide (s.timestamp = 0)) = true := by
  unfold enrichRecentTransactions GetRecentTransactions
  induction entries with
  | nil => rfl
  | cons e es ih =>
      rcases e with ⟨score, txId, amount⟩
      rcases txId with _ | t <;> rcases amount with _ | a <;>
        simpa [List.filterMap_cons] using ih

/-! ## C3 -/

/-- A fraud case that has already been closed. -/
def closedCaseFixture : FraudCase :=
  { NewFraudCase 11 22 33 .high with status := .closed }

/-- C3 counterexample: `Escalate` has no status guard, so it moves even
a closed case to escalated — "no operation moves a closed case to
another status" is false on the code. -/
theorem escalate_moves_closed_case :
    closedCaseFixture.status = CaseStatus.closed ∧
    (closedCaseFixture.Escalate "suspicious pattern").status = CaseStatus.escalated ∧
    CaseStatus.escalated ≠ CaseStatus.closed := by
  refine ⟨rfl, rfl, by decide⟩

/-- C3 as amended: Assign errors exactly when the case is closed or
resolved, Resolve errors exactly when closed, Close succeeds exactly
from resolved, every guarded operation leaves a closed case closed —
but Escalate is unguarded and moves any case, closed included, to
escalated. -/
theorem case_state_machine (fc : FraudCase) (inv resv : ℕ)
    (resolution reason : String) :
    ((fc.Assign inv = .error .caseAlreadyClosed) ↔
      (fc.status = .closed ∨ fc.status = .resolved)) ∧
    ((fc.Resolve resv resolution = .error .caseAlreadyClosed) ↔
      fc.status = .closed) ∧
    ((∃ fc2, fc.Close = .ok fc2) ↔ fc.status = .resolved) ∧
    ((fc.Escalate reason).status = .escalated) ∧
    (fc.status = .closed →
      fc.Assign inv = .error .caseAlreadyClosed ∧
      fc.Resolve resv resolution = .error .caseAlreadyClosed ∧
      fc.Close = .error .caseNotResolved) := by
  cases hs : fc.status <;>
    simp [FraudCase.Assign, FraudCase.Resolve, FraudCase.Close,
      FraudCase.Escalate, FraudCase.AddNote, hs]

/-- Witness for C3's amended statement: on a freshly opened case,
Close fails (the case is not resolved). -/
theorem case_state_machine_witness :
    (NewFraudCase 1 2 3 RiskLevel.high).Close = .error .caseNotResolved ∧
    ¬((NewFraudCase 1 2 3 RiskLevel.high).status = .closed ∨
      (NewFraudCase 1 2 3 RiskLevel.high).status = .resolved) := by
  have h := case_state_machine (NewFraudCase 1 2 3 RiskLevel.high) 4 5 "done" "why"
  refine ⟨?_, ?_⟩
  · by_contra hne
    have := h.2.2.1.mp
    rcases hclose : (NewFraudCase 1 2 3 RiskLevel.high).Close with e | fc2
    · rcases e
      · exact hne (by simp [FraudCase.Close, NewFraudCase] at hclose)
      · exact hne rfl
    · have : (NewFraudCase 1 2 3 RiskLevel.high).status = .resolved :=
        h.2.2.1.mp ⟨fc2, hclose⟩
      simp [NewFraudCase] at this
  · intro hor
    have : ¬(NewFraudCase 1 2 3 RiskLevel.high).Assign 4 = .error .caseAlreadyClosed := by
      simp [FraudCase.Assign, NewFraudCase]
    exact this (h.1.mpr hor)

/-! ## C8 -/

/-- C8: a successful AddRule/UpdateRule/DisableRule always leaves the
rule cache invalidated, so the very next GetActiveRules refetches the
active rules from the repository (whatever the clock and TTL say)
instead of serving a pre-mutation snapshot. -/
theorem mutators_invalidate_cache (e : EngineState)
    (r1 r2 r3 : Except Unit Unit) (e1 e2 e3 : EngineState)
    (h1 : AddRule e r1 = .ok e1)
    (h2 : UpdateRule e r2 = .ok e2)
    (h3 : DisableRule e r3 = .ok e3) :
    e1.rulesCache = none ∧ e2.rulesCache = none ∧ e3.rulesCache = none ∧
    (∀ now ttl rules, GetActiveRules e1 now ttl (.ok rules) =
      .ok (rules, { rulesCache := some rules, lastRefresh := now })) ∧
    (∀ now ttl rules, GetActiveRules e2 now ttl (.ok rules) =
      .ok (rules, { rulesCache := some rules, lastRefresh := now })) ∧
    (∀ now ttl rules, GetActiveRules e3 now ttl (.ok rules) =
      .ok (rules, { rulesCache := some rules, lastRefresh := now })) := by
  rcases r1 with u | u
  · exact absurd h1 (by simp [AddRule])
  rcases r2 with u | u
  · exact absurd h2 (by simp [UpdateRule])
  rcases r3 with u | u
  · exact absurd h3 (by simp [DisableRule])
  simp only [AddRule, UpdateRule, DisableRule, Except.ok.injEq] at h1 h2 h3
  subst h1; subst h2; subst h3
  refine ⟨rfl, rfl, rfl, ?_, ?_, ?_⟩ <;>
    · intro now ttl rules
      simp [GetActiveRules, invalidateCache]

/-- Witness for C8: starting from a warm cache holding the velocity
rule, a successful AddRule leads GetActiveRules to return the
repository's fresh list. -/
theorem mutators_invalidate_cache_witness :
    GetActiveRules
      (match AddRule { rulesCache := some [velocityRuleFixture], lastRefresh := 0 } (.ok ()) with
        | .ok e1 => e1
        | .error _ => { rulesCache := some [velocityRuleFixture], lastRefresh := 0 }) 1 5 (.ok []) =
      .ok ([], { rulesCache := some [], lastRefresh := 1 }) :=
  (mutators_invalidate_cache
    { rulesCache := some [velocityRuleFixture], lastRefresh := 0 }
    (.ok ()) (.ok ()) (.ok ())
    { rulesCache := none, lastRefresh := 0 }
    { rulesCache := none, lastRefresh := 0 }
    { rulesCache := none, lastRefresh := 0 }
    rfl rfl rfl).2.2.2.1 1 5 []

/-! ## C4 -/

/-- Modelled from the spec: `velocityScore(count, limit)` = 0.90 if
count/limit ≥ 2.0 else 0.50 + 0.40·(count/limit − 1.0), clamped to
[0, 1]. -/
def specVelocityScore (count limit : ℤ) : ℚ :=
  let ratio : ℚ := (count : ℚ) / (limit : ℚ)
  min 1 (max 0 (if ratio ≥ 2 then 0.9 else 0.5 + 0.4 * (ratio - 1)))

/-- On the reachable domain (`1 ≤ limit ≤ count`, which the fire
condition guarantees), the source's unclamped `calculateVelocityScore`
coincides with the spec's clamped formula: the value already lies in
[0.5, 0.9]. -/
theorem calculateVelocityScore_eq_spec (count limit : ℤ)
    (hlim : 1 ≤ limit) (hcl : limit ≤ count) :
    calculateVelocityScore count limit = specVelocityScore count limit := by
  have hlpos : (0 : ℚ) < (limit : ℚ) := by exact_mod_cast hlim
  have hq1 : (1 : ℚ) ≤ (count : ℚ) / (limit : ℚ) :=
    (one_le_div hlpos).mpr (by exact_mod_cast hcl)
  unfold calculateVelocityScore specVelocityScore
  dsimp only
  split_ifs with h
  · rw [max_eq_right (by norm_num), min_eq_right (by norm_num)]
  · push_neg at h
    have hge : (0.5 : ℚ) ≤ 0.5 + ((count : ℚ) / (limit : ℚ) - 1) * 0.4 := by
      nlinarith
    have hlt : 0.5 + ((count : ℚ) / (limit : ℚ) - 1) * 0.4 < 0.9 := by
      nlinarith
    rw [max_eq_right (by linarith), min_eq_right (by linarith)]
    ring

/-- C4: a velocity rule with an intact window store fires exactly when
`count ≥ max_transactions` (inclusive boundary), with the rule's own
action and score `velocityScore(count, max_transactions)` as the spec
defines it (clamp included). -/
theorem velocity_fires_at_inclusive_boundary (rule : Rule)
    (cfg : VelocityRuleConfig) (env : RuleEnv) (count : ℤ)
    (hcfg : rule.config = .velocity cfg)
    (hcount : env.velocityCount cfg.windowMinutes = .ok count)
    (hlim : 1 ≤ cfg.maxTransactions)
    (hge : cfg.maxTransactions ≤ count) :
    (evaluateVelocityRule rule env).fired = true ∧
    (evaluateVelocityRule rule env).action = rule.action ∧
    (evaluateVelocityRule rule env).score =
      specVelocityScore count cfg.maxTransactions := by
  have hspec := calculateVelocityScore_eq_spec count cfg.maxTransactions hlim hge
  unfold evaluateVelocityRule
  rw [hcfg]
  simp only [parseVelocityConfig, hcount, ge_iff_le, hge, if_true]
  simp [NewRuleResult, RuleResult.addMetadata, hspec]

/-- Witness for C4 at the boundary itself: `max_transactions = 5` and a
window count of exactly 5 fires with score 0.5 and the rule's block
action. -/
theorem velocity_fires_at_inclusive_boundary_witness :
    (evaluateVelocityRule velocityRuleFixture baseEnvFixture).fired = true ∧
    (evaluateVelocityRule velocityRuleFixture baseEnvFixture).action =
      velocityRuleFixture.action ∧
    (evaluateVelocityRule velocityRuleFixture baseEnvFixture).score =
      specVelocityScore 5 5 :=
  velocity_fires_at_inclusive_boundary velocityRuleFixture
    { maxTransactions := 5, windowMinutes := 5, amountThreshold := 0,
      countOnly := false }
    baseEnvFixture 5 rfl rfl (by norm_num) (by norm_num)

/-! ## C5 -/

/-- Every Go rule evaluator returns a nil error, so `EvaluateRule`
always yields a result. -/
theorem EvaluateRule_ok (rule : Rule) (env : RuleEnv) :
    ∃ res, EvaluateRule rule env = .ok res := by
  unfold EvaluateRule
  split_ifs
  · exact ⟨_, rfl⟩
  · cases rule.type <;> exact ⟨_, rfl⟩

/-- The fail-open result a velocity rule produces when the window-store
count lookup errors. -/
def velocityFailOpenResult (rule : Rule) : RuleResult :=
  NewRuleResult rule.id rule.name false 0 "Unable to check velocity" .allow

/-- `Engine.Evaluate` drops no rule: the per-rule evaluations never
error, so the result list is as long as the rule list. -/
theorem EngineEvaluate_length (rules : List Rule) (env : RuleEnv) :
    (EngineEvaluate rules env).length = rules.length := by
  unfold EngineEvaluate
  induction rules with
  | nil => rfl
  | cons r rs ih =>
      obtain ⟨res, hres⟩ := EvaluateRule_ok r env
      rw [List.filterMap_cons, hres]
      simpa [Except.toOption] using ih

/-- C5: when the window store errors, an active velocity rule fails
open — not fired, score 0, action allow — and `Evaluate` still returns
one result per rule instead of failing the whole evaluation. -/
theorem velocity_store_error_fails_open (rules : List Rule) (env : RuleEnv)
    (rule : Rule)
    (herr : ∀ w, env.velocityCount w = .error ())
    (htype : rule.type = .velocity)
    (hactive : rule.IsActive env.now = true) :
    EvaluateRule rule env = .ok (velocityFailOpenResult rule) ∧
    (EngineEvaluate rules env).length = rules.length := by
  constructor
  · unfold EvaluateRule
    rw [hactive, htype]
    simp only [Bool.not_true, Bool.false_eq_true, if_false, Except.ok.injEq]
    unfold evaluateVelocityRule
    dsimp only
    rw [herr]
    rfl
  · exact EngineEvaluate_length rules env

/-- Witness for C5: the fixture velocity rule with an erroring window
store fails open, and a two-rule list still yields two results. -/
theorem velocity_store_error_fails_open_witness :
    EvaluateRule velocityRuleFixture
      { baseEnvFixture with velocityCount := fun _ => .error () } =
      .ok (velocityFailOpenResult velocityRuleFixture) ∧
    (EngineEvaluate [velocityRuleFixture, velocityRuleFixture]
      { baseEnvFixture with velocityCount := fun _ => .error () }).length =
      ([velocityRuleFixture, velocityRuleFixture] : List Rule).length :=
  velocity_store_error_fails_open [velocityRuleFixture, velocityRuleFixture]
    { baseEnvFixture with velocityCount := fun _ => .error () }
    velocityRuleFixture (fun _ => rfl) rfl rfl

/-! ## C10 -/

/-- C10: a nil evaluation context, or a zero user or transaction UUID,
makes AnalyzeTransaction return ErrMissingTransactionData with the
persisted decision log untouched, independently of the rule set, the
thresholds, the weights, and the repository outcomes — no rule is
evaluated and nothing is persisted. -/
theorem analyze_rejects_missing_transaction_data (evalCtx : Option RuleEnv)
    (activeRulesRes : Except Unit (List Rule))
    (thresholds : DecisionThresholds) (weights : ScoreWeights)
    (persistRes : Except Unit Unit) (decisions : List FraudDecision)
    (hbad : evalCtx = none ∨
      ∃ ctx, evalCtx = some ctx ∧ (ctx.userId = 0 ∨ ctx.transactionId = 0)) :
    AnalyzeTransaction evalCtx activeRulesRes thresholds weights persistRes
      decisions = (.error .missingTransactionData, decisions) := by
  rcases hbad with hnone | ⟨ctx, hsome, hzero⟩
  · subst hnone; rfl
  · subst hsome
    unfold AnalyzeTransaction
    simp [hzero]

/-- Witness for C10: a context whose user id is the zero UUID is
rejected and the decision log stays empty. -/
theorem analyze_rejects_missing_transaction_data_witness :
    AnalyzeTransaction (some { baseEnvFixture with userId := 0 })
      (.ok [velocityRuleFixture]) DefaultDecisionThresholds
      DefaultScoreWeights (.ok ()) [] =
      (.error .missingTransactionData, []) :=
  analyze_rejects_missing_transaction_data
    (some { baseEnvFixture with userId := 0 }) (.ok [velocityRuleFixture])
    DefaultDecisionThresholds DefaultScoreWeights (.ok ()) []
    (Or.inr ⟨{ baseEnvFixture with userId := 0 }, rfl, Or.inl rfl⟩)

/-! ## C2 -/

/-- A geographic rule whose config blocks "KP", with a 500 km distance
limit and a non-block configured action. -/
def geoBlockedCountryRule : Rule :=
  { id := 3, name := "geo_rule", type := .geographic, severity := .high,
    action := .review,
    config := .geographic { allowedCountries := [], blockedCountries := ["KP"],
                            maxDistanceKm := 500, requireConsistent := false },
    enabled := true, version := 1, effectiveAt := 0, expiresAt := none }

/-- The current location of the impossible-travel scenario (Tokyo, with
a country code on the blocked list). -/
def tokyoLoc : GeoLocation :=
  { latitude := 35.6762, longitude := 139.6503, country := "KP", city := "Tokyo" }

/-- The prior location of the impossible-travel scenario (New York). -/
def nycLoc : GeoLocation :=
  { latitude := 40.7128, longitude := -74.0060, country := "US", city := "New York" }

/-- The prior transaction: in New York, ten minutes (1/6 h) before the
current timestamp 10. -/
def priorNYTx : TransactionSummary :=
  { id := 9, amount := 10, timestamp := 10 - 1/6, location := some nycLoc }

/-- An environment matching the spec's impossible-travel scenario —
prior transaction in New York ten minutes earlier, current transaction
in Tokyo (distance 10849 km, speed 65094 km/h) — but with the current
country also on the blocked list. -/
def impossibleTravelBlockedEnv : RuleEnv :=
  { baseEnvFixture with
    location := some tokyoLoc,
    recentTransactions := [priorNYTx],
    haversine := fun _ _ _ _ => 10849 }

/-- C2 counterexample: every hypothesis of the claim holds here —
max_distance_km = 500 > 0, a prior transaction with a location exists,
distance 10849 > 500 and speed 65094 > 900 — yet the blocked-country
check fires first, so the result scores 0.9 with country metadata, not
0.85 with distance and speed metadata. -/
theorem impossible_travel_preempted_by_blocked_country :
    (parseGeographicConfig geoBlockedCountryRule.config).maxDistanceKm > 0 ∧
    impossibleTravelBlockedEnv.recentTransactions = [priorNYTx] ∧
    priorNYTx.location = some nycLoc ∧
    impossibleTravelBlockedEnv.haversine tokyoLoc.latitude tokyoLoc.longitude
      nycLoc.latitude nycLoc.longitude >
      (parseGeographicConfig geoBlockedCountryRule.config).maxDistanceKm ∧
    impossibleTravelBlockedEnv.haversine tokyoLoc.latitude tokyoLoc.longitude
      nycLoc.latitude nycLoc.longitude /
      (impossibleTravelBlockedEnv.timestamp - priorNYTx.timestamp) > 900 ∧
    evaluateGeographicRule geoBlockedCountryRule impossibleTravelBlockedEnv =
      (NewRuleResult 3 "geo_rule" true 0.9 "Transaction from blocked country"
        .block).addMetadata "country" (.s "KP") ∧
    ¬(evaluateGeographicRule geoBlockedCountryRule
        impossibleTravelBlockedEnv).score = 0.85 := by
  refine ⟨by norm_num [parseGeographicConfig, geoBlockedCountryRule], rfl, rfl,
    by norm_num [impossibleTravelBlockedEnv, baseEnvFixture,
      parseGeographicConfig, geoBlockedCountryRule],
    by norm_num [impossibleTravelBlockedEnv, baseEnvFixture, priorNYTx],
    rfl, ?_⟩
  show ¬((NewRuleResult 3 "geo_rule" true 0.9 "Transaction from blocked country"
      .block).addMetadata "country" (.s "KP")).score = 0.85
  norm_num [NewRuleResult, RuleResult.addMetadata]

/-- C2 as amended: the impossible-travel override holds once no earlier
geographic check fires — the country is not blocked, the allowed-country
filter passes, and the require_consistent check does not fire; then
distance above the limit at speed above 900 km/h yields fired = true,
score 0.85, action block (whatever the rule's own action), with
distance_km and speed_kmh metadata. -/
theorem impossible_travel_fires_when_unpreempted (rule : Rule)
    (cfg : GeographicRuleConfig) (env : RuleEnv) (loc : GeoLocation)
    (lastTx : TransactionSummary) (rest : List TransactionSummary)
    (lastLoc : GeoLocation)
    (hcfg : rule.config = .geographic cfg)
    (hloc : env.location = some loc)
    (hrec : env.recentTransactions = lastTx :: rest)
    (hlastloc : lastTx.location = some lastLoc)
    (hnotBlocked : cfg.blockedCountries.contains loc.country = false)
    (hallowed : (!cfg.allowedCountries.isEmpty &&
      !cfg.allowedCountries.contains loc.country) = false)
    (hconsistent : geoNewLocationFires cfg env.isKnownLocation = false)
    (hmax : cfg.maxDistanceKm > 0)
    (hdist : env.haversine loc.latitude loc.longitude lastLoc.latitude
      lastLoc.longitude > cfg.maxDistanceKm)
    (hspeed : env.haversine loc.latitude loc.longitude lastLoc.latitude
      lastLoc.longitude / (env.timestamp - lastTx.timestamp) > 900) :
    evaluateGeographicRule rule env =
      ((NewRuleResult rule.id rule.name true 0.85 "Impossible travel"
        .block).addMetadata
        "distance_km" (.q (env.haversine loc.latitude loc.longitude
          lastLoc.latitude lastLoc.longitude))).addMetadata
        "speed_kmh" (.q (env.haversine loc.latitude loc.longitude
          lastLoc.latitude lastLoc.longitude /
            (env.timestamp - lastTx.timestamp))) := by
  unfold evaluateGeographicRule
  rw [hloc]
  dsimp only
  rw [hcfg]
  simp only [parseGeographicConfig, hnotBlocked, Bool.false_eq_true, if_false,
    hallowed, hconsistent, hrec, hlastloc]
  rw [if_pos hmax]
  rw [if_pos hdist, if_pos hspeed]

/-- The same scenario as the counterexample, with an empty blocked list:
the override branch is reached. -/
def geoDistanceOnlyRule : Rule :=
  { geoBlockedCountryRule with
    config := .geographic { allowedCountries := [], blockedCountries := [],
                            maxDistanceKm := 500, requireConsistent := false } }

/-- Witness for C2's amended statement on the spec's literal scenario
(New York → Tokyo in 10 minutes, distance 10849 km): fired at 0.85,
action block although the rule's action is review, with distance and
speed metadata. -/
theorem impossible_travel_fires_when_unpreempted_witness :
    evaluateGeographicRule geoDistanceOnlyRule impossibleTravelBlockedEnv =
      ((NewRuleResult 3 "geo_rule" true 0.85 "Impossible travel"
        .block).addMetadata
        "distance_km" (.q 10849)).addMetadata "speed_kmh" (.q 65094) := by
  have h := impossible_travel_fires_when_unpreempted geoDistanceOnlyRule
    { allowedCountries := [], blockedCountries := [], maxDistanceKm := 500,
      requireConsistent := false }
    impossibleTravelBlockedEnv tokyoLoc priorNYTx [] nycLoc
    rfl rfl rfl rfl rfl rfl rfl (by norm_num)
    (by norm_num [impossibleTravelBlockedEnv, baseEnvFixture])
    (by norm_num [impossibleTravelBlockedEnv, baseEnvFixture, priorNYTx])
  rw [h]
  norm_num [impossibleTravelBlockedEnv, baseEnvFixture, priorNYTx,
    geoDistanceOnlyRule, geoBlockedCountryRule]

end FraudDetection
